import Mathlib

/-!
Verification development for the draggify drag-and-drop composable
(src/src/composables/drag.ts).

The composable mutates a shared collection of lists while a pointer
gesture is in flight.  We embed the three event handlers
(the anonymous mousedown listener, handleMouseMove, handleMouseUp)
as pure transition functions on an explicit state record, together
with the listener registration discipline (window listeners added at
mount, move/up listeners added per gesture, removed at gesture end or
at unmount).  JavaScript array splice is embedded with its exact
index-clamping semantics (negative indices count from the end).
A handler that would throw a TypeError in JavaScript is embedded as
a transition returning the state mutated so far paired with the flag
true; uncaught exceptions in DOM listeners do not detach listeners,
so later events keep operating on that state.
-/

namespace Draggify

/-- An item of one of the lists.  The source is generic over
`T extends IDType`; every access the composable makes goes through
`id.toString()`, so the embedding keeps the identifier as a string. -/
structure Item where
  id : String
  deriving DecidableEq, Repr

/-- The `Preview` record of the source: indices of the last
speculative insertion. -/
structure Preview where
  list : Int
  target : Int
  deriving DecidableEq, Repr

/-- The mutable state of one `useDragDrop` instance: the reactive
`lists`, the rollback copy `startingLists`, the module-level
tracking variables, and which window listeners are attached.
`dragging` and `elemSet` record whether the corresponding nullable
DOM references are non-null. -/
structure DragState where
  lists : List (List Item)
  startingLists : List (List Item)
  dragging : Bool
  elemSet : Bool
  originalIndex : Int
  originalListIndex : Int
  targetListIndex : Int
  targetIndex : Int
  originalItem : Option Item
  addedPreview : Option Preview
  downListener : Bool
  moveUp : Bool
  deriving DecidableEq, Repr

/-- What a mousedown event resolves to: the event target is not an
HTMLElement, or `closest` finds no drag handle, or it finds a handle
whose id attribute is `io` (`none` when the attribute is absent). -/
inductive DownTarget where
  | notElement
  | noHandle
  | handle (io : Option String)
  deriving DecidableEq, Repr

/-- What `elementFromPoint` followed by `closest` yields during a
move: no element, or an element whose id attribute is `io`. -/
inductive HitResult where
  | noElement
  | elem (io : Option String)
  deriving DecidableEq, Repr

/-- The events delivered to the composable by the UI runtime. -/
inductive Event where
  | mousedown (t : DownTarget)
  | mousemove (h : HitResult)
  | mouseup
  | unmount
  deriving DecidableEq, Repr

/-- JavaScript array element access `xs[i]`: `undefined` (here
`none`) for negative or out-of-range indices. -/
def getL {α : Type} (xs : List α) (i : Int) : Option α :=
  if i < 0 then none else xs.get? i.toNat

/-- The effective start index of `Array.prototype.splice`:
negative values count from the end and clamp at 0, positive values
clamp at the length. -/
def actualStart (len : Nat) (start : Int) : Nat :=
  if start < 0 then ((len : Int) + start).toNat else min start.toNat len

/-- `l.splice(start, 1)`: remove at most one element at the
effective start index. -/
def spliceRemove1 (l : List Item) (start : Int) : List Item :=
  l.take (actualStart l.length start) ++ l.drop (actualStart l.length start + 1)

/-- `l.splice(start, 0, x)`: insert `x` at the effective start
index. -/
def spliceInsert (l : List Item) (start : Int) (x : Item) : List Item :=
  l.take (actualStart l.length start) ++ x :: l.drop (actualStart l.length start)

/-- The comparison `f.id.toString() === attr` used by both scans;
`attr` is `getAttribute` output, `null` (`none`) never matches. -/
def matchesId (io : Option String) (f : Item) : Bool :=
  some f.id == io

/-- `list.findIndex` for the predicate above, accumulating the
absolute position; returns `-1` when nothing matches. -/
def findIdxFrom (io : Option String) : List Item → Nat → Int
  | [], _ => -1
  | f :: rest, i => if matchesId io f then (i : Int) else findIdxFrom io rest (i + 1)

/-- `list.findIndex((f) => f.id.toString() === io)`. -/
def findIndexId (l : List Item) (io : Option String) : Int :=
  findIdxFrom io l 0

/-- The capture scan of the mousedown listener: for each list in
order, `originalIndex = list.findIndex(...)`; on a hit also set
`originalListIndex` and stop.  The accumulator carries the current
values of `(originalIndex, originalListIndex)`, which the loop
leaves partially overwritten when nothing is found. -/
def captureScanGo (io : Option String) : List (List Item) → Nat → Int × Int → Int × Int
  | [], _, acc => acc
  | l :: rest, i, acc =>
    let oi := findIndexId l io
    if oi == -1 then captureScanGo io rest (i + 1) (oi, acc.2)
    else (oi, (i : Int))

/-- The target scan of handleMouseMove: for each list in order, stop
with `(findIndex, listIndex)` at the first list containing the id;
leave the accumulator untouched when no list contains it.  (The
guard on an absent or empty id attribute is handled by the caller,
matching the in-loop break of the source.) -/
def moveScanGo (a : String) : List (List Item) → Nat → Int × Int → Int × Int
  | [], _, acc => acc
  | l :: rest, i, acc =>
    if l.any (matchesId (some a)) then (findIndexId l (some a), (i : Int))
    else moveScanGo a rest (i + 1) acc

/-- Resolution of the target indices for one move frame: an absent
or empty (falsy) id attribute breaks out of the scan immediately,
leaving the previous indices in place; otherwise scan the lists. -/
def resolveTarget (s : DragState) (io : Option String) : Int × Int :=
  match io with
  | none => (s.targetIndex, s.targetListIndex)
  | some a =>
    if a = "" then (s.targetIndex, s.targetListIndex)
    else moveScanGo a s.lists 0 (s.targetIndex, s.targetListIndex)

/-- The tail of handleMouseMove after the preview removal: insert
`originalItem` at `(targetListIndex, targetIndex)` — a TypeError
when that list index is out of range — then record `addedPreview`.
The record assignment is unconditional in the source, but is never
reached when the insertion throws. -/
def insertStep (s : DragState) : DragState × Bool :=
  match s.originalItem with
  | some x =>
    match getL s.lists s.targetListIndex with
    | none => (s, true)
    | some tl =>
      ({ s with
          lists := s.lists.set s.targetListIndex.toNat (spliceInsert tl s.targetIndex x),
          addedPreview := some ⟨s.targetListIndex, s.targetIndex⟩ }, false)
  | none => ({ s with addedPreview := some ⟨s.targetListIndex, s.targetIndex⟩ }, false)

/-- The preview-removal step of handleMouseMove followed by the
insertion: if a preview is recorded, splice it out of its list (a
TypeError when the recorded list index is out of range). -/
def removeStepThenInsert (s : DragState) : DragState × Bool :=
  match s.addedPreview with
  | some p =>
    match getL s.lists p.list with
    | none => (s, true)
    | some pl =>
      insertStep { s with lists := s.lists.set p.list.toNat (spliceRemove1 pl p.target) }
  | none => insertStep s

/-- The mousedown listener registered in onMounted.  It assigns
`elem`, clones it into `dragging`, runs the capture scan, and — when
no gesture already owns `originalItem` — deep-copies and splices out
the matched item; with no match the stale indices make
`lists[originalListIndex]` undefined and the copy throws.  On
success it attaches the move/up listeners. -/
def handleMouseDown (s : DragState) (t : DownTarget) : DragState × Bool :=
  match t with
  | .notElement => (s, false)
  | .noHandle => ({ s with elemSet := false }, false)
  | .handle io =>
    let s1 : DragState := { s with elemSet := true, dragging := true }
    let r := captureScanGo io s1.lists 0 (s1.originalIndex, s1.originalListIndex)
    let s2 : DragState := { s1 with originalIndex := r.1, originalListIndex := r.2 }
    if s2.originalItem.isSome then
      ({ s2 with moveUp := true }, false)
    else
      match getL s2.lists s2.originalListIndex with
      | none => (s2, true)
      | some l =>
        match getL l s2.originalIndex with
        | none => (s2, true)
        | some x =>
          ({ s2 with
              originalItem := some x,
              lists := s2.lists.set s2.originalListIndex.toNat (spliceRemove1 l s2.originalIndex),
              moveUp := true }, false)

/-- handleMouseMove: no-op without a ghost; a missed hit-test only
invalidates the target; otherwise resolve the target, splice the
previous preview out and the dragged item in. -/
def handleMouseMove (s : DragState) (h : HitResult) : DragState × Bool :=
  if s.dragging then
    match h with
    | .noElement => ({ s with targetIndex := -1 }, false)
    | .elem io =>
      let r := resolveTarget s io
      removeStepThenInsert { s with targetIndex := r.1, targetListIndex := r.2 }
  else (s, false)

/-- The cleanUp helper of the source. -/
def cleanUp (s : DragState) : DragState :=
  { s with
      originalIndex := -1
      originalListIndex := -1
      addedPreview := none
      targetListIndex := -1
      targetIndex := -1
      originalItem := none }

/-- handleMouseUp: guarded on the ghost and the tracked element;
rollback replaces `lists` with the copy in `startingLists` when the
target is invalid, a commit re-copies `lists` into `startingLists`;
then clean up and detach the move/up listeners. -/
def handleMouseUp (s : DragState) : DragState × Bool :=
  if s.dragging && s.elemSet then
    let s1 : DragState := { s with dragging := false }
    let s2 : DragState :=
      if s1.targetIndex = -1 then { s1 with lists := s1.startingLists }
      else { s1 with startingLists := s1.lists }
    ({ cleanUp s2 with moveUp := false }, false)
  else (s, false)

/-- Event dispatch with the listener discipline: the mousedown
listener is attached at mount and never detached; the move/up
listeners run only while attached; unmount detaches only the
move/up listeners. -/
def dispatch (s : DragState) (e : Event) : DragState × Bool :=
  match e with
  | .mousedown t => if s.downListener then handleMouseDown s t else (s, false)
  | .mousemove h => if s.moveUp then handleMouseMove s h else (s, false)
  | .mouseup => if s.moveUp then handleMouseUp s else (s, false)
  | .unmount => ({ s with moveUp := false }, false)

/-- The state right after `useDragDrop(items)` runs and the
component is mounted: `lists` aliases `items`, `startingLists` is a
deep copy of it (the same value in the embedding), every index is
`-1`, nothing is tracked. -/
def initState (items : List (List Item)) : DragState :=
  { lists := items
    startingLists := items
    dragging := false
    elemSet := false
    originalIndex := -1
    originalListIndex := -1
    targetListIndex := -1
    targetIndex := -1
    originalItem := none
    addedPreview := none
    downListener := true
    moveUp := false }

/-- Deliver a sequence of events, discarding the thrown-exception
flags (an uncaught exception leaves the listeners and the state in
place, so later events still run). -/
def run (s : DragState) : List Event → DragState
  | [] => s
  | e :: es => run (dispatch s e).1 es

/-- Events that are pointer moves. -/
def isMove : Event → Bool
  | .mousemove _ => true
  | _ => false

/-- Whether some list holds an item whose id matches the attribute. -/
def idFoundOpt (ls : List (List Item)) (io : Option String) : Bool :=
  ls.any (fun l => l.any (matchesId io))

/-- Number of positions across all lists holding a given id. -/
def idOccurrences (ls : List (List Item)) (a : String) : Nat :=
  (ls.map (fun l => (l.filter (fun f => f.id == a)).length)).sum

/-- Hit results that the target scan cannot resolve: an absent id
attribute, an empty one, or an identifier not in any list. -/
def resolvesNothing (ls : List (List Item)) (io : Option String) : Bool :=
  match io with
  | none => true
  | some a => a == "" || !(ls.any (fun l => l.any (matchesId (some a))))

/-- The reachability invariant of one composable instance: the
mousedown listener stays attached, tracking listeners imply a
detached item, and outside a gesture the collection equals the
rollback copy and no preview is recorded. -/
def Inv (s : DragState) : Prop :=
  s.downListener = true ∧
  (s.moveUp = true → s.originalItem.isSome = true) ∧
  (s.originalItem = none → s.lists = s.startingLists ∧ s.addedPreview = none)

/-! Concrete fixtures used by the scenario claims. -/

def itA : Item := ⟨"A"⟩
def itB : Item := ⟨"B"⟩
def itC : Item := ⟨"C"⟩
def itD : Item := ⟨"D"⟩
def itE : Item := ⟨"E"⟩

/-- The cross-list scenario collection `[[A,B,C],[D,E]]`. -/
def items4 : List (List Item) := [[itA, itB, itC], [itD, itE]]

/-- The same-list scenario collection `[[A,B,C]]`. -/
def items5 : List (List Item) := [[itA, itB, itC]]

/-- The two-item collection `[[A,B]]`. -/
def itemsAB : List (List Item) := [[itA, itB]]

/-- A mousedown on a drag handle bound to id `a`. -/
def evDown (a : String) : Event := Event.mousedown (DownTarget.handle (some a))

/-- A mousemove whose hit-test resolves an element bound to id `a`. -/
def evMove (a : String) : Event := Event.mousemove (HitResult.elem (some a))

/-- State after capturing A from `items4`. -/
def s4cap : DragState := (dispatch (initState items4) (evDown "A")).1

/-- State after capturing A from `items4` and one move hovering D. -/
def s4m1 : DragState := run (initState items4) [evDown "A", evMove "D"]

/-- State after capturing A from `items5`. -/
def s5cap : DragState := (dispatch (initState items5) (evDown "A")).1

/-- State after capturing A from `items5` and one move hovering C. -/
def s5m1 : DragState := run (initState items5) [evDown "A", evMove "C"]

/-- State after capturing A from `items5` (for the re-entrant
mousedown scenario). -/
def sAcap : DragState := run (initState items5) [evDown "A"]

/-- Pre-release state of a committed gesture on `itemsAB`: A was
captured and previewed onto B. -/
def s7pre : DragState := run (initState itemsAB) [evDown "A", evMove "B"]

/-- One dispatched move frame hovering D. -/
def stepD (s : DragState) : DragState := (dispatch s (evMove "D")).1

/-- One dispatched move frame hovering C. -/
def stepC (s : DragState) : DragState := (dispatch s (evMove "C")).1

/-- One direct handleMouseMove frame hovering D. -/
def stepMoveD (s : DragState) : DragState := (handleMouseMove s (HitResult.elem (some "D"))).1

/-- The move sequence that breaks the single-occupancy invariant:
a valid hover on D, a missed hit-test, a hover on a foreign element,
then a valid hover on B. -/
def c3trace : List Event :=
  [evDown "A", evMove "D", Event.mousemove HitResult.noElement, evMove "Z", evMove "B"]

/-! Basic lemmas about `run` and the list helpers. -/

lemma run_append (xs ys : List Event) : ∀ s : DragState,
    run s (xs ++ ys) = run (run s xs) ys := by
  induction xs with
  | nil => intro s; rfl
  | cons e rest ih => intro s; simpa [run] using ih (dispatch s e).1

lemma run_replicate (e : Event) : ∀ (n : Nat) (s : DragState),
    run s (List.replicate n e) = (fun t => (dispatch t e).1)^[n] s := by
  intro n
  induction n with
  | zero => intro s; rfl
  | succ k ih =>
    intro s
    rw [List.replicate_succ]
    show run (dispatch s e).1 (List.replicate k e) = _
    rw [ih, Function.iterate_succ_apply]

lemma getL_natCast {α : Type} (xs : List α) (n : Nat) : getL xs (n : Int) = xs.get? n := by
  simp [getL]

lemma getL_neg {α : Type} (xs : List α) {i : Int} (h : i < 0) : getL xs i = none := by
  simp [getL, h]

lemma getL_eq_some {α : Type} {xs : List α} {i : Int} {v : α} (h : getL xs i = some v) :
    0 ≤ i ∧ xs.get? i.toNat = some v := by
  unfold getL at h
  split at h
  · exact absurd h (by simp)
  · exact ⟨by omega, h⟩

lemma set_get?_self {α : Type} : ∀ (l : List α) (n : Nat) (v : α),
    l.get? n = some v → l.set n v = l := by
  intro l
  induction l with
  | nil => intro n v h; cases n <;> simp at h
  | cons a t ih =>
    intro n v h
    cases n with
    | zero => simp at h; simp [List.set, h]
    | succ m => simp only [List.set]; rw [ih m v (by simpa using h)]

/-- Removing the element at a valid non-negative index and
re-inserting the same element there restores the list.  This is the
identity behind a stationary preview frame. -/
lemma spliceInsert_spliceRemove1 {l : List Item} {t : Int} {x : Item}
    (h : getL l t = some x) : spliceInsert (spliceRemove1 l t) t x = l := by
  obtain ⟨ht, hget⟩ := getL_eq_some h
  set n := t.toNat with hn
  have hlen : n < l.length := List.get?_eq_some.mp hget |>.1
  have hx : l.get ⟨n, hlen⟩ = x := by
    have := List.get?_eq_some.mp hget
    obtain ⟨h1, h2⟩ := this
    simpa using h2
  have hstart : actualStart l.length t = n := by
    unfold actualStart
    rw [if_neg (by omega)]
    omega
  have htake : (l.take n).length = n := by
    simp [List.length_take]; omega
  have hrem : spliceRemove1 l t = l.take n ++ l.drop (n + 1) := by
    unfold spliceRemove1; rw [hstart]
  have hremlen : (spliceRemove1 l t).length = l.length - 1 := by
    rw [hrem]; simp [List.length_take, List.length_drop]; omega
  have hstart2 : actualStart (spliceRemove1 l t).length t = n := by
    unfold actualStart
    rw [if_neg (by omega), hremlen]
    omega
  unfold spliceInsert
  rw [hstart2, hrem]
  rw [List.take_left' htake, List.drop_left' htake]
  conv_rhs => rw [← List.take_append_drop n l]
  congr 1
  rw [List.drop_eq_get_cons hlen, hx]

/-! Lemmas about the identifier scans. -/

lemma findIdxFrom_notFound {io : Option String} :
    ∀ (l : List Item) (i : Nat), l.any (matchesId io) = false →
    findIdxFrom io l i = -1 := by
  intro l
  induction l with
  | nil => intro i _; rfl
  | cons f rest ih =>
    intro i h
    simp only [List.any_cons, Bool.or_eq_false_iff] at h
    have := ih (i + 1) h.2
    simpa [findIdxFrom, h.1] using this

lemma findIdxFrom_found {io : Option String} :
    ∀ (l : List Item) (i : Nat), l.any (matchesId io) = true →
    ∃ (j : Nat) (x : Item), findIdxFrom io l i = ((i + j : Nat) : Int) ∧
      l.get? j = some x ∧ matchesId io x = true := by
  intro l
  induction l with
  | nil => intro i h; simp at h
  | cons f rest ih =>
    intro i h
    by_cases hf : matchesId io f
    · exact ⟨0, f, by simp [findIdxFrom, hf], rfl, hf⟩
    · have hrest : rest.any (matchesId io) = true := by
        simpa [hf] using h
      obtain ⟨j, x, h1, h2, h3⟩ := ih (i + 1) hrest
      refine ⟨j + 1, x, ?_, by simpa using h2, h3⟩
      simp only [findIdxFrom, hf, if_neg, Bool.false_eq_true, not_false_iff]
      rw [h1]
      congr 1
      omega

lemma findIndexId_notFound {l : List Item} {io : Option String}
    (h : l.any (matchesId io) = false) : findIndexId l io = -1 :=
  findIdxFrom_notFound l 0 h

lemma findIndexId_found {l : List Item} {io : Option String}
    (h : l.any (matchesId io) = true) :
    ∃ (j : Nat) (x : Item), findIndexId l io = (j : Int) ∧
      l.get? j = some x ∧ matchesId io x = true := by
  obtain ⟨j, x, h1, h2, h3⟩ := findIdxFrom_found l 0 h
  exact ⟨j, x, by simpa using h1, h2, h3⟩

lemma captureScanGo_snd_notFound {io : Option String} :
    ∀ (ls : List (List Item)) (i : Nat) (acc : Int × Int),
    ls.any (fun l => l.any (matchesId io)) = false →
    (captureScanGo io ls i acc).2 = acc.2 := by
  intro ls
  induction ls with
  | nil => intro i acc _; rfl
  | cons l rest ih =>
    intro i acc h
    simp only [List.any_cons, Bool.or_eq_false_iff] at h
    have hidx := findIndexId_notFound h.1
    simp only [captureScanGo, hidx]
    exact ih (i + 1) (-1, acc.2) h.2

lemma captureScanGo_found {io : Option String} :
    ∀ (ls : List (List Item)) (i : Nat) (acc : Int × Int),
    ls.any (fun l => l.any (matchesId io)) = true →
    ∃ (j k : Nat) (l : List Item) (x : Item),
      captureScanGo io ls i acc = ((j : Int), ((i + k : Nat) : Int)) ∧
      ls.get? k = some l ∧ l.get? j = some x ∧ matchesId io x = true := by
  intro ls
  induction ls with
  | nil => intro i acc h; simp at h
  | cons l rest ih =>
    intro i acc h
    by_cases hl : l.any (matchesId io) = true
    · obtain ⟨j, x, h1, h2, h3⟩ := findIndexId_found hl
      refine ⟨j, 0, l, x, ?_, rfl, h2, h3⟩
      have hne : ¬(((j : Int) == -1) = true) := by
        simp only [beq_iff_eq]
        omega
      simp only [captureScanGo, h1]
      rw [if_neg hne]
      simp
    · have hrest : rest.any (fun l => l.any (matchesId io)) = true := by
        simpa [hl] using h
      obtain ⟨j, k, l', x, h1, h2, h3, h4⟩ := ih (i + 1) (-1, acc.2) hrest
      refine ⟨j, k + 1, l', x, ?_, by simpa using h2, h3, h4⟩
      have hidx := findIndexId_notFound (show l.any (matchesId io) = false by simpa using hl)
      simp only [captureScanGo, hidx]
      rw [h1]
      have harith : i + 1 + k = i + (k + 1) := by omega
      rw [harith]
      simp

lemma moveScanGo_notFound {a : String} :
    ∀ (ls : List (List Item)) (i : Nat) (acc : Int × Int),
    ls.any (fun l => l.any (matchesId (some a))) = false →
    moveScanGo a ls i acc = acc := by
  intro ls
  induction ls with
  | nil => intro i acc _; rfl
  | cons l rest ih =>
    intro i acc h
    simp only [List.any_cons, Bool.or_eq_false_iff] at h
    simp only [moveScanGo, h.1]
    exact ih (i + 1) acc h.2

/-! Field-preservation lemmas: which variables each handler can
write.  Every branch of handleMouseMove, the error branches
included, leaves the tracking flags, the detached item and the
rollback copy alone; the mousedown listener never writes
`startingLists`. -/

lemma insertStep_fields (s : DragState) :
    (insertStep s).1.originalItem = s.originalItem ∧
    (insertStep s).1.moveUp = s.moveUp ∧
    (insertStep s).1.downListener = s.downListener ∧
    (insertStep s).1.startingLists = s.startingLists ∧
    (insertStep s).1.dragging = s.dragging ∧
    (insertStep s).1.elemSet = s.elemSet ∧
    (insertStep s).1.originalIndex = s.originalIndex ∧
    (insertStep s).1.originalListIndex = s.originalListIndex := by
  unfold insertStep
  split
  · split
    · exact ⟨rfl, rfl, rfl, rfl, rfl, rfl, rfl, rfl⟩
    · exact ⟨rfl, rfl, rfl, rfl, rfl, rfl, rfl, rfl⟩
  · exact ⟨rfl, rfl, rfl, rfl, rfl, rfl, rfl, rfl⟩

lemma removeStepThenInsert_fields (s : DragState) :
    (removeStepThenInsert s).1.originalItem = s.originalItem ∧
    (removeStepThenInsert s).1.moveUp = s.moveUp ∧
    (removeStepThenInsert s).1.downListener = s.downListener ∧
    (removeStepThenInsert s).1.startingLists = s.startingLists ∧
    (removeStepThenInsert s).1.dragging = s.dragging ∧
    (removeStepThenInsert s).1.elemSet = s.elemSet ∧
    (removeStepThenInsert s).1.originalIndex = s.originalIndex ∧
    (removeStepThenInsert s).1.originalListIndex = s.originalListIndex := by
  unfold removeStepThenInsert
  split
  · split
    · exact ⟨rfl, rfl, rfl, rfl, rfl, rfl, rfl, rfl⟩
    · exact insertStep_fields _
  · exact insertStep_fields s

lemma handleMouseMove_fields (s : DragState) (h : HitResult) :
    (handleMouseMove s h).1.originalItem = s.originalItem ∧
    (handleMouseMove s h).1.moveUp = s.moveUp ∧
    (handleMouseMove s h).1.downListener = s.downListener ∧
    (handleMouseMove s h).1.startingLists = s.startingLists ∧
    (handleMouseMove s h).1.dragging = s.dragging ∧
    (handleMouseMove s h).1.elemSet = s.elemSet ∧
    (handleMouseMove s h).1.originalIndex = s.originalIndex ∧
    (handleMouseMove s h).1.originalListIndex = s.originalListIndex := by
  unfold handleMouseMove
  by_cases hd : s.dragging = true
  · rw [if_pos hd]
    cases h with
    | noElement => exact ⟨rfl, rfl, rfl, rfl, rfl, rfl, rfl, rfl⟩
    | elem io =>
      exact removeStepThenInsert_fields
        { s with
            targetIndex := (resolveTarget s io).1,
            targetListIndex := (resolveTarget s io).2 }
  · rw [if_neg hd]
    exact ⟨rfl, rfl, rfl, rfl, rfl, rfl, rfl, rfl⟩

lemma handleMouseDown_startingLists (s : DragState) (t : DownTarget) :
    (handleMouseDown s t).1.startingLists = s.startingLists ∧
    (handleMouseDown s t).1.downListener = s.downListener := by
  unfold handleMouseDown
  cases t with
  | notElement => exact ⟨rfl, rfl⟩
  | noHandle => exact ⟨rfl, rfl⟩
  | handle io =>
    dsimp only
    split
    · exact ⟨rfl, rfl⟩
    · split
      · exact ⟨rfl, rfl⟩
      · split
        · exact ⟨rfl, rfl⟩
        · exact ⟨rfl, rfl⟩

lemma handleMouseUp_fields (s : DragState) :
    (handleMouseUp s).1.downListener = s.downListener := by
  unfold handleMouseUp
  by_cases hg : (s.dragging && s.elemSet) = true
  · rw [if_pos hg]
    dsimp only [cleanUp]
    split <;> rfl
  · rw [if_neg hg]

/-! The reachability invariant is preserved by every event. -/

lemma inv_init (items : List (List Item)) : Inv (initState items) := by
  refine ⟨rfl, ?_, fun _ => ⟨rfl, rfl⟩⟩
  intro h
  exact Bool.noConfusion h

lemma inv_step (s : DragState) (e : Event) (h : Inv s) : Inv (dispatch s e).1 := by
  obtain ⟨hdl, hmv, hni⟩ := h
  cases e with
  | unmount => exact ⟨hdl, fun hff => Bool.noConfusion hff, fun h0 => hni h0⟩
  | mousedown t =>
    show Inv (if s.downListener then handleMouseDown s t else (s, false)).1
    rw [if_pos hdl]
    cases t with
    | notElement => exact ⟨hdl, hmv, hni⟩
    | noHandle => exact ⟨hdl, hmv, hni⟩
    | handle io =>
      unfold handleMouseDown
      dsimp only
      split
      · next hsome =>
        refine ⟨hdl, fun _ => hsome, fun h0 => ?_⟩
        rw [h0] at hsome
        simp at hsome
      · next hnone =>
        split
        · exact ⟨hdl, fun h0 => absurd (hmv h0) hnone, fun h0 => ⟨(hni h0).1, (hni h0).2⟩⟩
        · split
          · exact ⟨hdl, fun h0 => absurd (hmv h0) hnone, fun h0 => ⟨(hni h0).1, (hni h0).2⟩⟩
          · exact ⟨hdl, fun _ => rfl, fun h0 => by simp at h0⟩
  | mousemove hres =>
    show Inv (if s.moveUp then handleMouseMove s hres else (s, false)).1
    by_cases hmu : s.moveUp = true
    · rw [if_pos hmu]
      obtain ⟨f1, f2, f3, _, _, _, _, _⟩ := handleMouseMove_fields s hres
      refine ⟨f3 ▸ hdl, fun _ => ?_, fun h0 => ?_⟩
      · rw [f1]; exact hmv hmu
      · rw [f1] at h0
        have := hmv hmu
        rw [h0] at this
        simp at this
    · rw [if_neg hmu]
      exact ⟨hdl, hmv, hni⟩
  | mouseup =>
    show Inv (if s.moveUp then handleMouseUp s else (s, false)).1
    by_cases hmu : s.moveUp = true
    · rw [if_pos hmu]
      unfold handleMouseUp
      by_cases hg : (s.dragging && s.elemSet) = true
      · rw [if_pos hg]
        dsimp only [cleanUp]
        split
        · exact ⟨hdl, by simp, fun _ => ⟨rfl, rfl⟩⟩
        · exact ⟨hdl, by simp, fun _ => ⟨rfl, rfl⟩⟩
      · rw [if_neg hg]
        exact ⟨hdl, hmv, hni⟩
    · rw [if_neg hmu]
      exact ⟨hdl, hmv, hni⟩

lemma inv_run (es : List Event) : ∀ s : DragState, Inv s → Inv (run s es) := by
  induction es with
  | nil => intro s h; exact h
  | cons e rest ih => intro s h; exact ih (dispatch s e).1 (inv_step s e h)

lemma inv_reachable (items : List (List Item)) (es : List Event) :
    Inv (run (initState items) es) :=
  inv_run es (initState items) (inv_init items)

/-- When no gesture is in flight and the pressed handle's identifier
is present in some list, the mousedown listener runs its success
path: it does not throw, leaves the rollback copy alone, and turns
on the ghost, the tracked element and the move/up listeners. -/
lemma capture_ok_fields (s : DragState) (io : Option String)
    (hni : s.originalItem = none) (hfound : idFoundOpt s.lists io = true) :
    (handleMouseDown s (.handle io)).2 = false ∧
    (handleMouseDown s (.handle io)).1.startingLists = s.startingLists ∧
    (handleMouseDown s (.handle io)).1.moveUp = true ∧
    (handleMouseDown s (.handle io)).1.dragging = true ∧
    (handleMouseDown s (.handle io)).1.elemSet = true ∧
    (handleMouseDown s (.handle io)).1.downListener = s.downListener := by
  obtain ⟨j, k, l, x, hscan, hk, hj, hx⟩ :=
    captureScanGo_found s.lists 0 (s.originalIndex, s.originalListIndex) hfound
  unfold handleMouseDown
  dsimp only
  rw [hscan]
  dsimp only
  rw [if_neg (by rw [hni]; simp)]
  have hgl : getL s.lists ((0 + k : Nat) : Int) = some l := by
    rw [getL_natCast]
    simpa using hk
  have hgj : getL l (j : Int) = some x := by
    rw [getL_natCast]
    exact hj
  split
  · next heq =>
    rw [hgl] at heq
    exact absurd heq (by simp)
  · next l' heq =>
    rw [hgl] at heq
    injection heq with heq2
    subst heq2
    split
    · next heq3 =>
      rw [hgj] at heq3
      exact absurd heq3 (by simp)
    · next x' heq3 =>
      exact ⟨rfl, rfl, rfl, rfl, rfl, rfl⟩

/-- Pointer moves never write the tracking flags, the detached
item, or the rollback copy, whatever the hit results are. -/
lemma run_moves_fields (ms : List Event) (hm : ms.all isMove = true) :
    ∀ s : DragState,
    (run s ms).startingLists = s.startingLists ∧
    (run s ms).moveUp = s.moveUp ∧
    (run s ms).dragging = s.dragging ∧
    (run s ms).elemSet = s.elemSet ∧
    (run s ms).downListener = s.downListener ∧
    (run s ms).originalItem = s.originalItem := by
  induction ms with
  | nil => intro s; exact ⟨rfl, rfl, rfl, rfl, rfl, rfl⟩
  | cons e rest ih =>
    intro s
    simp only [List.all_cons, Bool.and_eq_true] at hm
    cases e with
    | mousedown t => exact absurd hm.1 (by simp [isMove])
    | mouseup => exact absurd hm.1 (by simp [isMove])
    | unmount => exact absurd hm.1 (by simp [isMove])
    | mousemove hres =>
      have step :
          (dispatch s (.mousemove hres)).1.startingLists = s.startingLists ∧
          (dispatch s (.mousemove hres)).1.moveUp = s.moveUp ∧
          (dispatch s (.mousemove hres)).1.dragging = s.dragging ∧
          (dispatch s (.mousemove hres)).1.elemSet = s.elemSet ∧
          (dispatch s (.mousemove hres)).1.downListener = s.downListener ∧
          (dispatch s (.mousemove hres)).1.originalItem = s.originalItem := by
        have hd : dispatch s (.mousemove hres)
            = if s.moveUp then handleMouseMove s hres else (s, false) := rfl
        rw [hd]
        by_cases hmu : s.moveUp = true
        · rw [if_pos hmu]
          obtain ⟨f1, f2, f3, f4, f5, f6, _, _⟩ := handleMouseMove_fields s hres
          exact ⟨f4, f2, f5, f6, f3, f1⟩
        · rw [if_neg hmu]
          exact ⟨rfl, rfl, rfl, rfl, rfl, rfl⟩
      obtain ⟨g1, g2, g3, g4, g5, g6⟩ := ih hm.2 (dispatch s (.mousemove hres)).1
      have hrun : run s (Event.mousemove hres :: rest)
          = run (dispatch s (.mousemove hres)).1 rest := rfl
      rw [hrun, g1, g2, g3, g4, g5, g6]
      exact ⟨step.1, step.2.1, step.2.2.1, step.2.2.2.1, step.2.2.2.2.1, step.2.2.2.2.2⟩

/-- Core of the rollback argument: from any state with the mount
listener attached, no gesture in flight, and the pressed identifier
present, a capture followed by any pointer moves and a release with
an invalid target rewrites the collection to the rollback copy held
when the gesture began. -/
lemma failed_gesture_core (s : DragState) (io : Option String) (ms : List Event)
    (hdl : s.downListener = true) (hni : s.originalItem = none)
    (hfound : idFoundOpt s.lists io = true) (hm : ms.all isMove = true)
    (hti : (run s (Event.mousedown (.handle io) :: ms)).targetIndex = -1) :
    (run s (Event.mousedown (.handle io) :: ms ++ [Event.mouseup])).lists
      = s.startingLists := by
  have hdisp : dispatch s (Event.mousedown (.handle io))
      = handleMouseDown s (.handle io) := by
    show (if s.downListener then handleMouseDown s (.handle io) else (s, false))
        = handleMouseDown s (.handle io)
    rw [if_pos hdl]
  obtain ⟨_, c1, c2, c3, c4, _⟩ := capture_ok_fields s io hni hfound
  obtain ⟨m1, m2, m3, m4, _, _⟩ := run_moves_fields ms hm (handleMouseDown s (.handle io)).1
  have hs2 : run s (Event.mousedown (.handle io) :: ms)
      = run (handleMouseDown s (.handle io)).1 ms := by
    show run (dispatch s (Event.mousedown (.handle io))).1 ms = _
    rw [hdisp]
  rw [hs2] at hti
  have hsplit : run s (Event.mousedown (DownTarget.handle io) :: ms ++ [Event.mouseup])
      = run (run s (Event.mousedown (DownTarget.handle io) :: ms)) [Event.mouseup] :=
    run_append (Event.mousedown (DownTarget.handle io) :: ms) [Event.mouseup] s
  rw [hsplit, hs2]
  set s2 := run (handleMouseDown s (.handle io)).1 ms with hs2def
  show (dispatch s2 Event.mouseup).1.lists = s.startingLists
  have hmu2 : s2.moveUp = true := by rw [m2, c2]
  have hdr2 : s2.dragging = true := by rw [m3, c3]
  have hel2 : s2.elemSet = true := by rw [m4, c4]
  have hst2 : s2.startingLists = s.startingLists := by rw [m1, c1]
  show (if s2.moveUp then handleMouseUp s2 else (s2, false)).1.lists = s.startingLists
  rw [if_pos hmu2]
  unfold handleMouseUp
  rw [if_pos (by rw [hdr2, hel2]; rfl)]
  dsimp only [cleanUp]
  rw [if_pos hti]
  exact hst2

/-! Helpers for the oscillation of a stationary hover: one frame
over the same hovered item is not idempotent but has period two. -/

lemma run_replicate_stepD (n : Nat) (s : DragState) :
    run s (List.replicate n (evMove "D")) = stepD^[n] s := by
  rw [run_replicate]
  rfl

lemma run_replicate_stepC (n : Nat) (s : DragState) :
    run s (List.replicate n (evMove "C")) = stepC^[n] s := by
  rw [run_replicate]
  rfl

lemma stepD_even (n : Nat) : stepD^[2 * n] s4m1 = s4m1 := by
  induction n with
  | zero => rfl
  | succ k ih =>
    have h : 2 * (k + 1) = 2 + 2 * k := by ring
    rw [h, Function.iterate_add_apply, ih]
    decide

lemma stepC_even (n : Nat) : stepC^[2 * n] s5m1 = s5m1 := by
  induction n with
  | zero => rfl
  | succ k ih =>
    have h : 2 * (k + 1) = 2 + 2 * k := by ring
    rw [h, Function.iterate_add_apply, ih]
    decide

lemma s4_odd (n : Nat) :
    run s4cap (List.replicate (2 * n + 1) (evMove "D")) = s4m1 := by
  rw [run_replicate_stepD, Function.iterate_add_apply]
  have h1 : stepD^[1] s4cap = s4m1 := by decide
  rw [h1, stepD_even]

lemma s5_odd (n : Nat) :
    run s5cap (List.replicate (2 * n + 1) (evMove "C")) = s5m1 := by
  rw [run_replicate_stepC, Function.iterate_add_apply]
  have h1 : stepC^[1] s5cap = s5m1 := by decide
  rw [h1, stepC_even]

/-! The claims. -/

/-- Claim C1 (confirmed): from any reachable idle state, a drag
started on a handle whose item is found in the collection and
released while the target is invalid leaves the List Collection
deep-equal to its value at that pointer-down; the rollback copy
used by handleMouseUp equals that pre-capture state. -/
theorem c1_failed_drag_rolls_back (items : List (List Item)) (es : List Event)
    (io : Option String) (ms : List Event)
    (hm : ms.all isMove = true)
    (hni : (run (initState items) es).originalItem = none)
    (hfound : idFoundOpt (run (initState items) es).lists io = true)
    (hti : (run (run (initState items) es)
        (Event.mousedown (DownTarget.handle io) :: ms)).targetIndex = -1) :
    (run (run (initState items) es)
        (Event.mousedown (DownTarget.handle io) :: ms ++ [Event.mouseup])).lists
      = (run (initState items) es).lists := by
  obtain ⟨hdl, _, hsnap⟩ := inv_reachable items es
  rw [failed_gesture_core (run (initState items) es) io ms hdl hni hfound hm hti]
  exact ((hsnap hni).1).symm

/-- Witness for C1 on the concrete collection `[[A,B]]`: press A,
release with no move delivered, the collection is unchanged. -/
theorem c1_failed_drag_rolls_back_witness :
    ([] : List Event).all isMove = true ∧
    (run (initState itemsAB) []).originalItem = none ∧
    idFoundOpt (run (initState itemsAB) []).lists (some "A") = true ∧
    (run (run (initState itemsAB) [])
        (Event.mousedown (DownTarget.handle (some "A")) :: ([] : List Event))).targetIndex
      = -1 ∧
    (run (run (initState itemsAB) [])
        (Event.mousedown (DownTarget.handle (some "A")) ::
          ([] : List Event) ++ [Event.mouseup])).lists
      = (run (initState itemsAB) []).lists :=
  ⟨rfl, rfl, by decide, by decide,
    c1_failed_drag_rolls_back itemsAB [] (some "A") [] rfl rfl (by decide) (by decide)⟩

/-- Claim C4 counterexample: two pointer-move events each resolving
hovered item D (followed by release) yield `[[B,C],[D,A,E]]`, not
the claimed `[[B,C],[A,D,E]]`, so "one or more" fails. -/
theorem c4_counterexample :
    (run (initState items4)
        (evDown "A" :: List.replicate 2 (evMove "D") ++ [Event.mouseup])).lists
      = [[itB, itC], [itD, itA, itE]] ∧
    ([[itB, itC], [itD, itA, itE]] : List (List Item))
      ≠ [[itB, itC], [itA, itD, itE]] := by
  decide

/-- Claim C4 amended: on `[[A,B,C],[D,E]]`, capturing A and
delivering an odd number of moves resolving D yields
`[[B,C],[A,D,E]]` on release, while an even positive number yields
`[[B,C],[D,A,E]]` — the frame re-resolves the hovered index before
removing the previous preview, so a stationary hover oscillates
with period two. -/
theorem c4_amended (n : Nat) :
    (run (initState items4)
        (evDown "A" :: List.replicate (2 * n + 1) (evMove "D") ++ [Event.mouseup])).lists
      = [[itB, itC], [itA, itD, itE]] ∧
    (run (initState items4)
        (evDown "A" :: List.replicate (2 * n + 2) (evMove "D") ++ [Event.mouseup])).lists
      = [[itB, itC], [itD, itA, itE]] := by
  have hsplit1 : run (initState items4)
      (evDown "A" :: List.replicate (2 * n + 1) (evMove "D") ++ [Event.mouseup])
      = run (run s4cap (List.replicate (2 * n + 1) (evMove "D"))) [Event.mouseup] :=
    run_append (List.replicate (2 * n + 1) (evMove "D")) [Event.mouseup] s4cap
  have hsplit2 : run (initState items4)
      (evDown "A" :: List.replicate (2 * n + 2) (evMove "D") ++ [Event.mouseup])
      = run (run s4cap (List.replicate (2 * n + 2) (evMove "D"))) [Event.mouseup] :=
    run_append (List.replicate (2 * n + 2) (evMove "D")) [Event.mouseup] s4cap
  have heven : run s4cap (List.replicate (2 * n + 2) (evMove "D")) = stepD s4m1 := by
    rw [run_replicate_stepD]
    have h : 2 * n + 2 = (2 * n + 1) + 1 := by ring
    rw [h, Function.iterate_succ_apply']
    rw [← run_replicate_stepD, s4_odd n]
  constructor
  · rw [hsplit1, s4_odd n]
    decide
  · rw [hsplit2, heven]
    decide

/-- Claim C5 counterexample: a single pointer-move resolving C
(followed by release) yields `[[B,A,C]]`, not the claimed
`[[B,C,A]]` — the hovered index is resolved in the post-removal
list, so A lands in front of C after one frame. -/
theorem c5_counterexample :
    (run (initState items5)
        (evDown "A" :: List.replicate 1 (evMove "C") ++ [Event.mouseup])).lists
      = [[itB, itA, itC]] ∧
    ([[itB, itA, itC]] : List (List Item)) ≠ [[itB, itC, itA]] := by
  decide

/-- Claim C5 amended: on `[[A,B,C]]`, capturing A and delivering an
odd number of moves resolving C yields `[[B,A,C]]` on release,
while an even positive number yields the claimed `[[B,C,A]]` — the
stationary hover oscillates with period two. -/
theorem c5_amended (n : Nat) :
    (run (initState items5)
        (evDown "A" :: List.replicate (2 * n + 1) (evMove "C") ++ [Event.mouseup])).lists
      = [[itB, itA, itC]] ∧
    (run (initState items5)
        (evDown "A" :: List.replicate (2 * n + 2) (evMove "C") ++ [Event.mouseup])).lists
      = [[itB, itC, itA]] := by
  have hsplit1 : run (initState items5)
      (evDown "A" :: List.replicate (2 * n + 1) (evMove "C") ++ [Event.mouseup])
      = run (run s5cap (List.replicate (2 * n + 1) (evMove "C"))) [Event.mouseup] :=
    run_append (List.replicate (2 * n + 1) (evMove "C")) [Event.mouseup] s5cap
  have hsplit2 : run (initState items5)
      (evDown "A" :: List.replicate (2 * n + 2) (evMove "C") ++ [Event.mouseup])
      = run (run s5cap (List.replicate (2 * n + 2) (evMove "C"))) [Event.mouseup] :=
    run_append (List.replicate (2 * n + 2) (evMove "C")) [Event.mouseup] s5cap
  have heven : run s5cap (List.replicate (2 * n + 2) (evMove "C")) = stepC s5m1 := by
    rw [run_replicate_stepC]
    have h : 2 * n + 2 = (2 * n + 1) + 1 := by ring
    rw [h, Function.iterate_succ_apply']
    rw [← run_replicate_stepC, s5_odd n]
  constructor
  · rw [hsplit1, s5_odd n]
    decide
  · rw [hsplit2, heven]
    decide

/-- Claim C2 counterexample: a pointer-down on a handle bound to
identifier Z over the collection `[[A]]` makes the listener throw
(the exception flag of the embedded step is true), refuting the
claim that capture aborts with no exception raised. -/
theorem c2_counterexample :
    (dispatch (initState [[itA]])
        (Event.mousedown (DownTarget.handle (some "Z")))).2 = true := by
  decide

/-- Claim C2 amended: a pointer-down on a handle whose identifier
matches no item aborts capture without starting a session — no item
is detached, the collection and the rollback copy are untouched and
the move/up listeners are not attached — but it is not silent: the
stale `-1` indices make the deep-copy access throw a TypeError that
escapes the listener. -/
theorem c2_amended (s : DragState) (io : Option String)
    (hdl : s.downListener = true) (hni : s.originalItem = none)
    (holi : s.originalListIndex = -1)
    (hnf : idFoundOpt s.lists io = false) :
    (dispatch s (Event.mousedown (DownTarget.handle io))).2 = true ∧
    (dispatch s (Event.mousedown (DownTarget.handle io))).1.lists = s.lists ∧
    (dispatch s (Event.mousedown (DownTarget.handle io))).1.originalItem = none ∧
    (dispatch s (Event.mousedown (DownTarget.handle io))).1.moveUp = s.moveUp ∧
    (dispatch s (Event.mousedown (DownTarget.handle io))).1.startingLists
      = s.startingLists := by
  have hd : dispatch s (Event.mousedown (DownTarget.handle io))
      = handleMouseDown s (DownTarget.handle io) := by
    show (if s.downListener then handleMouseDown s (DownTarget.handle io) else (s, false))
        = handleMouseDown s (DownTarget.handle io)
    rw [if_pos hdl]
  rw [hd]
  have hsnd : (captureScanGo io s.lists 0 (s.originalIndex, s.originalListIndex)).2
      = s.originalListIndex :=
    captureScanGo_snd_notFound s.lists 0 (s.originalIndex, s.originalListIndex) hnf
  unfold handleMouseDown
  dsimp only
  rw [if_neg (by rw [hni]; simp)]
  split
  · next heq => exact ⟨rfl, rfl, hni, rfl, rfl⟩
  · next l heq =>
    rw [hsnd, holi] at heq
    rw [getL_neg s.lists (show (-1 : Int) < 0 by norm_num)] at heq
    exact Option.noConfusion heq

/-- Witness for the amended C2 at the concrete input of the
counterexample. -/
theorem c2_amended_witness :
    (dispatch (initState [[itA]])
        (Event.mousedown (DownTarget.handle (some "Z")))).2 = true ∧
    (dispatch (initState [[itA]])
        (Event.mousedown (DownTarget.handle (some "Z")))).1.lists
      = (initState [[itA]]).lists ∧
    (dispatch (initState [[itA]])
        (Event.mousedown (DownTarget.handle (some "Z")))).1.originalItem = none ∧
    (dispatch (initState [[itA]])
        (Event.mousedown (DownTarget.handle (some "Z")))).1.moveUp
      = (initState [[itA]]).moveUp ∧
    (dispatch (initState [[itA]])
        (Event.mousedown (DownTarget.handle (some "Z")))).1.startingLists
      = (initState [[itA]]).startingLists :=
  c2_amended (initState [[itA]]) (some "Z") rfl rfl rfl (by decide)

/-- Claim C3 (code bug witness): running the capture of A over
`[[A,B,C],[D,E]]`, one valid hover on D, one missed hit-test, one
hover on a foreign element and one valid hover on B leaves the
collection as `[[A,B,C],[D,A]]`: the dragged identifier A occupies
two positions (and E has been deleted), although the pre-session
collection held exactly one A. -/
theorem c3_single_occupancy_violated :
    (run (initState items4) c3trace).lists = [[itA, itB, itC], [itD, itA]] ∧
    idOccurrences (run (initState items4) c3trace).lists "A" = 2 ∧
    idOccurrences items4 "A" = 1 ∧
    idOccurrences (run (initState items4) c3trace).lists "E" = 0 := by
  decide

/-- Claim C8 counterexample: with `[[A,B,C]]`, after pointer-down on
A starts a session (originalIndex 0), a second pointer-down on C
while the session is active overwrites the recorded source index to
1, refuting that such an event changes no session source indices. -/
theorem c8_counterexample :
    (run (initState items5) [evDown "A"]).originalIndex = 0 ∧
    (run (initState items5) [evDown "A", evDown "C"]).originalIndex = 1 ∧
    (run (initState items5) [evDown "A", evDown "C"]).originalItem = some itA := by
  decide

/-- Claim C8 amended: a pointer-down while a session is active
removes no item, does not change the detached source item or the
preview record, does not throw and does not start a second capture;
it does, however, re-run the identifier scan and can overwrite the
recorded source indices (and it re-targets the tracked element and
ghost). -/
theorem c8_amended (s : DragState) (t : DownTarget)
    (h : s.originalItem.isSome = true) :
    (dispatch s (Event.mousedown t)).1.lists = s.lists ∧
    (dispatch s (Event.mousedown t)).1.originalItem = s.originalItem ∧
    (dispatch s (Event.mousedown t)).1.addedPreview = s.addedPreview ∧
    (dispatch s (Event.mousedown t)).2 = false := by
  have hd : dispatch s (Event.mousedown t)
      = if s.downListener then handleMouseDown s t else (s, false) := rfl
  rw [hd]
  by_cases hdl : s.downListener = true
  · rw [if_pos hdl]
    cases t with
    | notElement => exact ⟨rfl, rfl, rfl, rfl⟩
    | noHandle => exact ⟨rfl, rfl, rfl, rfl⟩
    | handle io =>
      unfold handleMouseDown
      dsimp only
      rw [if_pos h]
      exact ⟨rfl, rfl, rfl, rfl⟩
  · rw [if_neg hdl]
    exact ⟨rfl, rfl, rfl, rfl⟩

/-- Witness for the amended C8: the second pointer-down of the
counterexample scenario leaves collection, detached item and
preview unchanged and throws nothing. -/
theorem c8_amended_witness :
    (run (initState items5) [evDown "A"]).originalItem.isSome = true ∧
    ((dispatch (run (initState items5) [evDown "A"])
        (Event.mousedown (DownTarget.handle (some "C")))).1.lists
      = (run (initState items5) [evDown "A"]).lists ∧
    (dispatch (run (initState items5) [evDown "A"])
        (Event.mousedown (DownTarget.handle (some "C")))).1.originalItem
      = (run (initState items5) [evDown "A"]).originalItem ∧
    (dispatch (run (initState items5) [evDown "A"])
        (Event.mousedown (DownTarget.handle (some "C")))).1.addedPreview
      = (run (initState items5) [evDown "A"]).addedPreview ∧
    (dispatch (run (initState items5) [evDown "A"])
        (Event.mousedown (DownTarget.handle (some "C")))).2 = false) :=
  ⟨by decide,
    c8_amended (run (initState items5) [evDown "A"])
      (DownTarget.handle (some "C")) (by decide)⟩

/-- Claim C9 counterexample: with the preview of A sitting on D
(state after capture of A and one hover on D), a second consecutive
handleMouseMove frame resolving the same hovered item D changes the
arrangement from `[[B,C],[A,D,E]]` to `[[B,C],[D,A,E]]` — the frame
is not idempotent, because the hovered index is resolved before the
existing preview is removed. -/
theorem c9_counterexample :
    s4m1.lists = [[itB, itC], [itA, itD, itE]] ∧
    (handleMouseMove s4m1 (HitResult.elem (some "D"))).1.lists
      = [[itB, itC], [itD, itA, itE]] ∧
    (handleMouseMove s4m1 (HitResult.elem (some "D"))).1.lists ≠ s4m1.lists := by
  decide

/-- Claim C9 amended: handleMouseMove is not idempotent with
respect to the hovered item; a repeated frame over the same hovered
item alternates between two arrangements (the resolved index shifts
by the preview removal), so the frame applied on the post-preview
state has period two: any even number of repeats restores the state
and one repeat moves the dragged item past the hovered one. -/
theorem c9_amended (n : Nat) :
    (handleMouseMove s4m1 (HitResult.elem (some "D"))).1.lists
      = [[itB, itC], [itD, itA, itE]] ∧
    stepMoveD^[2 * n] s4m1 = s4m1 ∧
    stepMoveD (stepMoveD s4m1) = s4m1 := by
  refine ⟨by decide, ?_, by decide⟩
  induction n with
  | zero => rfl
  | succ k ih =>
    have h : 2 * (k + 1) = 2 + 2 * k := by ring
    rw [h, Function.iterate_add_apply, ih]
    decide

/-- Reading back the preview slot after overwriting it. -/
lemma getL_set_self {α : Type} {xs : List α} {i : Int} {w : α} (v : α)
    (h : getL xs i = some w) : getL (xs.set i.toNat v) i = some v := by
  obtain ⟨hi, hg⟩ := getL_eq_some h
  have hlen : i.toNat < xs.length := (List.get?_eq_some.mp hg).1
  unfold getL
  rw [if_neg (by omega)]
  rw [List.get?_set_eq_of_lt v hlen]

/-- The insertion step on a state whose target list is in range. -/
lemma insertStep_eq (s : DragState) (x : Item) (tl : List Item)
    (hoi : s.originalItem = some x)
    (hgl : getL s.lists s.targetListIndex = some tl) :
    insertStep s = ({ s with
        lists := s.lists.set s.targetListIndex.toNat (spliceInsert tl s.targetIndex x),
        addedPreview := some ⟨s.targetListIndex, s.targetIndex⟩ }, false) := by
  unfold insertStep
  split
  · next x' heq =>
    rw [hoi] at heq
    injection heq with heq
    subst heq
    split
    · next heq2 =>
      rw [hgl] at heq2
      exact Option.noConfusion heq2
    · next tl' heq2 =>
      rw [hgl] at heq2
      injection heq2 with heq2
      subst heq2
      rfl
  · next heq =>
    rw [hoi] at heq
    exact Option.noConfusion heq

/-- A frame whose stale target still equals the recorded preview
location, with the dragged item sitting there, removes the preview
and re-inserts it at the same slot: the whole state is unchanged
and nothing throws. -/
lemma removeStepThenInsert_stationary (s : DragState) (p : Preview)
    (pl : List Item) (x : Item)
    (hprev : s.addedPreview = some p)
    (hpl : p.list = s.targetListIndex) (hpt : p.target = s.targetIndex)
    (hgl : getL s.lists p.list = some pl) (hgx : getL pl p.target = some x)
    (hoi : s.originalItem = some x) :
    removeStepThenInsert s = (s, false) := by
  unfold removeStepThenInsert
  split
  · next p' heq =>
    rw [hprev] at heq
    injection heq with heq
    subst heq
    split
    · next heq2 =>
      rw [hgl] at heq2
      exact Option.noConfusion heq2
    · next pl' heq2 =>
      rw [hgl] at heq2
      injection heq2 with heq2
      subst heq2
      have hoi2 : ({ s with
          lists := s.lists.set p.list.toNat (spliceRemove1 pl p.target) } :
            DragState).originalItem = some x := hoi
      have hgl2 : getL ({ s with
          lists := s.lists.set p.list.toNat (spliceRemove1 pl p.target) } :
            DragState).lists
          ({ s with
          lists := s.lists.set p.list.toNat (spliceRemove1 pl p.target) } :
            DragState).targetListIndex = some (spliceRemove1 pl p.target) := by
        show getL (s.lists.set p.list.toNat (spliceRemove1 pl p.target))
            s.targetListIndex = some (spliceRemove1 pl p.target)
        rw [← hpl]
        exact getL_set_self (spliceRemove1 pl p.target) hgl
      rw [insertStep_eq _ x (spliceRemove1 pl p.target) hoi2 hgl2]
      have hins : spliceInsert (spliceRemove1 pl p.target) s.targetIndex x = pl := by
        rw [← hpt]
        exact spliceInsert_spliceRemove1 hgx
      have hsetset : (s.lists.set p.list.toNat (spliceRemove1 pl p.target)).set
          s.targetListIndex.toNat pl = s.lists := by
        rw [← hpl, List.set_set]
        obtain ⟨_, hg⟩ := getL_eq_some hgl
        exact set_get?_self s.lists p.list.toNat pl hg
      refine Prod.ext ?_ rfl
      show ({ s with
          lists := (s.lists.set p.list.toNat (spliceRemove1 pl p.target)).set
            s.targetListIndex.toNat
            (spliceInsert (spliceRemove1 pl p.target) s.targetIndex x),
          addedPreview := some ⟨s.targetListIndex, s.targetIndex⟩ } : DragState) = s
      rw [hins, hsetset]
      have hp2 : (⟨s.targetListIndex, s.targetIndex⟩ : Preview) = p := by
        rw [← hpl, ← hpt]
      rw [hp2, ← hprev]
  · next heq =>
    rw [hprev] at heq
    exact Option.noConfusion heq

/-- Claim C6 counterexample: after a valid hover on D (preview
`[[B,C],[A,D,E]]`) and a missed hit-test (which set targetIndex to
`-1`), a move frame over a foreign element Z mutates the collection
to `[[B,C],[D,A,E]]`, refuting the claim that such a frame leaves
the List Collection exactly as it was. -/
theorem c6_counterexample :
    (run (initState items4)
        [evDown "A", evMove "D", Event.mousemove HitResult.noElement]).lists
      = [[itB, itC], [itA, itD, itE]] ∧
    (run (initState items4)
        [evDown "A", evMove "D", Event.mousemove HitResult.noElement, evMove "Z"]).lists
      = [[itB, itC], [itD, itA, itE]] := by
  decide

/-- Claim C6 amended: during a session, a missed hit-test only sets
targetIndex to `-1` and changes nothing else.  A frame over an
element with an absent or empty identifier, or an identifier found
in no list, does not re-resolve the target but still re-applies the
preview splice at the stale target; when the stale target still
equals the recorded preview location and the dragged item sits
there — in particular on any frame directly following a
successfully previewed frame — the collection and the preview are
left unchanged and nothing is thrown.  (When the stale target has
drifted from the preview, such a frame can move the dragged item or
throw.) -/
theorem c6_amended (s : DragState) (hdr : s.dragging = true) (hmu : s.moveUp = true) :
    dispatch s (Event.mousemove HitResult.noElement)
      = ({ s with targetIndex := -1 }, false) ∧
    (∀ (io : Option String) (p : Preview) (pl : List Item) (x : Item),
      resolvesNothing s.lists io = true →
      s.addedPreview = some p →
      p.list = s.targetListIndex → p.target = s.targetIndex →
      getL s.lists p.list = some pl → getL pl p.target = some x →
      s.originalItem = some x →
      dispatch s (Event.mousemove (HitResult.elem io)) = (s, false)) := by
  constructor
  · have hd : dispatch s (Event.mousemove HitResult.noElement)
        = if s.moveUp then handleMouseMove s HitResult.noElement else (s, false) := rfl
    rw [hd, if_pos hmu]
    unfold handleMouseMove
    rw [if_pos hdr]
  · intro io p pl x hres hprev hpl hpt hgl hgx hoi
    have hd : dispatch s (Event.mousemove (HitResult.elem io))
        = if s.moveUp then handleMouseMove s (HitResult.elem io) else (s, false) := rfl
    rw [hd, if_pos hmu]
    unfold handleMouseMove
    rw [if_pos hdr]
    have hrt : resolveTarget s io = (s.targetIndex, s.targetListIndex) := by
      unfold resolveTarget
      cases io with
      | none => rfl
      | some a =>
        show (if a = "" then (s.targetIndex, s.targetListIndex)
          else moveScanGo a s.lists 0 (s.targetIndex, s.targetListIndex))
            = (s.targetIndex, s.targetListIndex)
        by_cases ha : a = ""
        · rw [if_pos ha]
        · rw [if_neg ha]
          apply moveScanGo_notFound
          unfold resolvesNothing at hres
          simp only [Bool.or_eq_true, beq_iff_eq, Bool.not_eq_true'] at hres
          rcases hres with hres | hres
          · exact absurd hres ha
          · exact hres
    dsimp only
    rw [hrt]
    show removeStepThenInsert s = (s, false)
    exact removeStepThenInsert_stationary s p pl x hprev hpl hpt hgl hgx hoi

/-- Witness for the amended C6: in the state with the preview of A
sitting on D, a frame over a foreign element Z is a complete no-op,
and a missed hit-test only invalidates the target. -/
theorem c6_amended_witness :
    s4m1.dragging = true ∧ s4m1.moveUp = true ∧
    dispatch s4m1 (Event.mousemove HitResult.noElement)
      = ({ s4m1 with targetIndex := -1 }, false) ∧
    dispatch s4m1 (Event.mousemove (HitResult.elem (some "Z"))) = (s4m1, false) := by
  have h := c6_amended s4m1 (by decide) (by decide)
  exact ⟨by decide, by decide, h.1,
    h.2 (some "Z") ⟨1, 0⟩ [itA, itD, itE] itA (by decide) (by decide) (by decide)
      (by decide) (by decide) (by decide) (by decide)⟩

/-- The rollback copy is written only by a release with a valid
target: no other event, and no rollback, touches `startingLists`. -/
lemma startingLists_changes_only_on_commit (s' : DragState) (e : Event)
    (hch : (dispatch s' e).1.startingLists ≠ s'.startingLists) :
    e = Event.mouseup ∧ s'.targetIndex ≠ -1 := by
  cases e with
  | mousedown t =>
    exfalso
    apply hch
    have hd : dispatch s' (Event.mousedown t)
        = if s'.downListener then handleMouseDown s' t else (s', false) := rfl
    rw [hd]
    by_cases hdl : s'.downListener = true
    · rw [if_pos hdl]
      exact (handleMouseDown_startingLists s' t).1
    · rw [if_neg hdl]
  | mousemove h =>
    exfalso
    apply hch
    have hd : dispatch s' (Event.mousemove h)
        = if s'.moveUp then handleMouseMove s' h else (s', false) := rfl
    rw [hd]
    by_cases hmu : s'.moveUp = true
    · rw [if_pos hmu]
      exact (handleMouseMove_fields s' h).2.2.2.1
    · rw [if_neg hmu]
  | unmount => exact absurd rfl hch
  | mouseup =>
    refine ⟨rfl, ?_⟩
    intro hti
    apply hch
    have hd : dispatch s' Event.mouseup
        = if s'.moveUp then handleMouseUp s' else (s', false) := rfl
    rw [hd]
    by_cases hmu : s'.moveUp = true
    · rw [if_pos hmu]
      unfold handleMouseUp
      by_cases hg : (s'.dragging && s'.elemSet) = true
      · rw [if_pos hg]
        dsimp only [cleanUp]
        rw [if_pos hti]
      · rw [if_neg hg]
    · rw [if_neg hmu]

/-- Claim C7 (confirmed): when a gesture is released with a valid
target, the rollback copy is refreshed to the committed
arrangement, the commit itself adds no further mutation, a
subsequent gesture released with an invalid target restores exactly
that post-commit arrangement, and the rollback copy is written only
by valid-target releases, never by rollbacks or any other event. -/
theorem c7_commit_finality (items : List (List Item)) (es : List Event)
    (io : Option String) (ms : List Event)
    (hm : ms.all isMove = true)
    (hmu : (run (initState items) es).moveUp = true)
    (hdr : (run (initState items) es).dragging = true)
    (hel : (run (initState items) es).elemSet = true)
    (hti : (run (initState items) es).targetIndex ≠ -1)
    (hfound : idFoundOpt
        ((dispatch (run (initState items) es) Event.mouseup).1).lists io = true)
    (hti2 : (run ((dispatch (run (initState items) es) Event.mouseup).1)
        (Event.mousedown (DownTarget.handle io) :: ms)).targetIndex = -1) :
    (dispatch (run (initState items) es) Event.mouseup).1.startingLists
      = (run (initState items) es).lists ∧
    (dispatch (run (initState items) es) Event.mouseup).1.lists
      = (run (initState items) es).lists ∧
    (run ((dispatch (run (initState items) es) Event.mouseup).1)
        (Event.mousedown (DownTarget.handle io) :: ms ++ [Event.mouseup])).lists
      = (run (initState items) es).lists ∧
    (∀ (s' : DragState) (e : Event),
      (dispatch s' e).1.startingLists ≠ s'.startingLists →
      e = Event.mouseup ∧ s'.targetIndex ≠ -1) := by
  obtain ⟨hdl, _, _⟩ := inv_reachable items es
  have hshape :
      (dispatch (run (initState items) es) Event.mouseup).1.startingLists
        = (run (initState items) es).lists ∧
      (dispatch (run (initState items) es) Event.mouseup).1.lists
        = (run (initState items) es).lists ∧
      (dispatch (run (initState items) es) Event.mouseup).1.originalItem = none ∧
      (dispatch (run (initState items) es) Event.mouseup).1.downListener
        = (run (initState items) es).downListener := by
    have hd : dispatch (run (initState items) es) Event.mouseup
        = if (run (initState items) es).moveUp
            then handleMouseUp (run (initState items) es)
            else (run (initState items) es, false) := rfl
    rw [hd, if_pos hmu]
    unfold handleMouseUp
    rw [if_pos (by rw [hdr, hel]; rfl)]
    dsimp only [cleanUp]
    rw [if_neg hti]
    exact ⟨rfl, rfl, rfl, rfl⟩
  refine ⟨hshape.1, hshape.2.1, ?_, fun s' e hch =>
    startingLists_changes_only_on_commit s' e hch⟩
  have hcore := failed_gesture_core
    ((dispatch (run (initState items) es) Event.mouseup).1) io ms
    (by rw [hshape.2.2.2]; exact hdl) hshape.2.2.1 hfound hm hti2
  rw [hcore, hshape.1]

/-- Witness for C7: on `[[A,B]]`, commit a gesture that previewed A
onto B, then fail a second gesture on A; the collection returns to
the committed arrangement `[[A,B]]`. -/
theorem c7_commit_finality_witness :
    (run (initState itemsAB) [evDown "A", evMove "B"]).targetIndex ≠ -1 ∧
    (dispatch (run (initState itemsAB) [evDown "A", evMove "B"])
        Event.mouseup).1.startingLists
      = (run (initState itemsAB) [evDown "A", evMove "B"]).lists ∧
    (run ((dispatch (run (initState itemsAB) [evDown "A", evMove "B"])
          Event.mouseup).1)
        (Event.mousedown (DownTarget.handle (some "A")) ::
          ([] : List Event) ++ [Event.mouseup])).lists
      = (run (initState itemsAB) [evDown "A", evMove "B"]).lists :=
  have h := c7_commit_finality itemsAB [evDown "A", evMove "B"] (some "A") []
    rfl (by decide) (by decide) (by decide) (by decide) (by decide) (by decide)
  ⟨by decide, h.1, h.2.2.1⟩

/-- Claim C10 (confirmed): unmount teardown removes only the
move/up listeners — the mousedown listener attached at mount stays
registered and the collection is untouched — and after unmount a
pointer-down on a drag handle still captures its item and mutates
the collection. -/
theorem c10_unmount_leaves_mousedown :
    (∀ s : DragState,
      (dispatch s Event.unmount).1.downListener = s.downListener ∧
      (dispatch s Event.unmount).1.moveUp = false ∧
      (dispatch s Event.unmount).1.lists = s.lists) ∧
    (run (initState itemsAB) [Event.unmount]).downListener = true ∧
    (run (initState itemsAB) [Event.unmount, evDown "A"]).originalItem = some itA ∧
    (run (initState itemsAB) [Event.unmount, evDown "A"]).lists = [[itB]] ∧
    (run (initState itemsAB) [Event.unmount]).lists = [[itA, itB]] :=
  ⟨fun _ => ⟨rfl, rfl, rfl⟩, by decide, by decide, by decide, by decide⟩

end Draggify
